import Mathlib

/-!
Verification development for the client-record reconciliation and
aggregation core of the repository: a shallow embedding of the relevant
functions of clients_summary.py, clients_menu.py and src/database.py,
together with theorems settling the frozen behavioural claims.

JSON documents are modelled by the inductive type JValue; numbers are
modelled by rationals (the repository never exercises float rounding,
NaN, infinities or exponent literals, which are outside the modelled
fragment). Python dictionaries are modelled by association lists with
first-match lookup; documents produced by json.load have distinct keys,
so this coincides with dict semantics on all reachable inputs.
-/

/-- JSON-compatible values as produced by json.loads. -/
inductive JValue where
  | jnull
  | jbool (b : Bool)
  | jnum (q : ℚ)
  | jstr (s : String)
  | jarr (items : List JValue)
  | jobj (fields : List (String × JValue))

/-- ASCII lower-casing of one character, as Python str.lower on the
ASCII inputs exercised here. -/
def charLower (c : Char) : Char :=
  if 65 ≤ c.toNat ∧ c.toNat ≤ 90 then Char.ofNat (c.toNat + 32) else c

/-- Python str.lower. -/
def strLower (s : String) : String :=
  String.mk (s.toList.map charLower)

/-- Python str.strip: leading and trailing whitespace removed. -/
def strTrim (s : String) : String :=
  String.mk (((s.toList.dropWhile Char.isWhitespace).reverse.dropWhile
    Char.isWhitespace).reverse)

/-- Python str.endswith. -/
def strEndsWith (s suf : String) : Bool :=
  let l := s.toList
  let p := suf.toList
  l.drop (l.length - p.length) == p

/-- Python truthiness (bool(v)) for JSON-compatible values. -/
def truthy : JValue → Bool
  | .jnull => false
  | .jbool b => b
  | .jnum q => !(decide (q = 0))
  | .jstr s => !(s == "")
  | .jarr items => !items.isEmpty
  | .jobj fields => !fields.isEmpty

/-- Association-list lookup with first-match semantics, modelling dict.get. -/
def alistGet {β : Type} (kvs : List (String × β)) (k : String) : Option β :=
  (kvs.find? (fun p => p.1 == k)).map (fun p => p.2)

/-- Key membership, modelling the Python expression (k in data). -/
def hasKey {β : Type} (kvs : List (String × β)) (k : String) : Bool :=
  (alistGet kvs k).isSome

/-- Truthiness of data.get(k): false when the key is absent (None). -/
def dictGetTruthy (kvs : List (String × JValue)) (k : String) : Bool :=
  match alistGet kvs k with
  | some v => truthy v
  | none => false

/-- Whether a JSON root is an object (isinstance(data, dict)). -/
def isObj : JValue → Bool
  | .jobj _ => true
  | _ => false

/-- The classifier is_client_record, identical in clients_summary.py
lines 9-18 and clients_menu.py lines 74-81: non-dicts are rejected;
otherwise truthy name and business_name, or truthy business_name plus
the presence of the employees_count or industry key. -/
def is_client_record : JValue → Bool
  | .jobj kvs =>
      (dictGetTruthy kvs "name" && dictGetTruthy kvs "business_name") ||
      (dictGetTruthy kvs "business_name" &&
        (hasKey kvs "employees_count" || hasKey kvs "industry"))
  | _ => false

/-- The function extract_industry of clients_summary.py lines 21-26:
the industry value when it is a string with non-blank content, stripped. -/
def extract_industry : JValue → Option String
  | .jobj kvs =>
      match alistGet kvs "industry" with
      | some (.jstr s) => if strTrim s == "" then none else some (strTrim s)
      | _ => none
  | _ => none

/-- Digits of a numeral read into a natural number. -/
def digitsToNat (cs : List Char) : ℕ :=
  cs.foldl (fun n c => n * 10 + (c.toNat - 48)) 0

/-- Unsigned decimal literal of the form digits, digits.digits, .digits
or digits. read as a rational; anything else is a parse failure. -/
def parseUnsigned (cs : List Char) : Option ℚ :=
  match cs.span Char.isDigit with
  | (ds, []) => if ds.isEmpty then none else some ((digitsToNat ds : ℚ))
  | (ds, c :: fs) =>
      if c = '.' && fs.all Char.isDigit && !(ds.isEmpty && fs.isEmpty) then
        some ((digitsToNat ds : ℚ) + (digitsToNat fs : ℚ) / ((10 : ℚ) ^ fs.length))
      else none

/-- Python float(s) on a string: surrounding whitespace stripped, then an
optionally signed decimal literal (exponent, nan and inf literals are
outside the modelled fragment). -/
def pyFloatOfString (s : String) : Option ℚ :=
  match (strTrim s).toList with
  | '-' :: rest => (parseUnsigned rest).map (fun q => -q)
  | '+' :: rest => parseUnsigned rest
  | cs => parseUnsigned cs

/-- Python float(v) on a JSON value: numbers pass through, booleans read
as 0 or 1, strings parse as decimal literals, everything else raises and
is modelled as none. -/
def pyFloat : JValue → Option ℚ
  | .jnum q => some q
  | .jbool b => some (if b then 1 else 0)
  | .jstr s => pyFloatOfString s
  | _ => none

/-- The function extract_employees of clients_summary.py lines 29-40: if
the employees_count key is present, float conversion of its value is the
result (a failure yields none without consulting employees); otherwise
the same for the employees key; otherwise none. -/
def extract_employees : JValue → Option ℚ
  | .jobj kvs =>
      match alistGet kvs "employees_count" with
      | some v => pyFloat v
      | none =>
          match alistGet kvs "employees" with
          | some v => pyFloat v
          | none => none
  | _ => none

/-- Strings of a JSON list that are non-blank, stripped, in order. -/
def challengeItems (items : List JValue) : List String :=
  items.filterMap (fun c =>
    match c with
    | .jstr s => if strTrim s == "" then none else some (strTrim s)
    | _ => none)

/-- The function extract_challenges of clients_summary.py lines 43-53:
the stripped main_challenge string when non-blank, followed by the
stripped non-blank strings of the challenges list. -/
def extract_challenges : JValue → List String
  | .jobj kvs =>
      (match alistGet kvs "main_challenge" with
       | some (.jstr s) => if strTrim s == "" then [] else [strTrim s]
       | _ => []) ++
      (match alistGet kvs "challenges" with
       | some (.jarr items) => challengeItems items
       | _ => [])
  | _ => []

/-- Order-preserving first-wins deduplication, modelling the seen-set
loop of clients_summary.py lines 88-93; seen is the accumulator. -/
def dedupFirst (seen : List String) : List String → List String
  | [] => []
  | c :: cs => if c ∈ seen then dedupFirst seen cs else c :: dedupFirst (c :: seen) cs

/-- Maximum of a function over a list, continuing from a floor m. -/
def maxFrom {α : Type} (f : α → ℕ) (m : ℕ) (l : List α) : ℕ :=
  l.foldl (fun acc x => max acc (f x)) m

/-- Maximum of a function over a list, 0 on the empty list. -/
def maxF {α : Type} (f : α → ℕ) (l : List α) : ℕ :=
  maxFrom f 0 l

/-- Left fold keeping the current element unless a strictly larger value
appears, as Python max does over an iterable: the first maximal element
wins. -/
def foldMax {α : Type} (f : α → ℕ) (a : α) (l : List α) : α :=
  l.foldl (fun b x => if f b < f x then x else b) a

/-- Counter(industries).most_common(1)[0][0] at clients_summary.py lines
79-81: Counter keys are in first-occurrence order, and most_common(1)
takes the maximum by count, the first-encountered key winning ties; none
when the list is empty. -/
def mostCommonIndustry (industries : List String) : Option String :=
  match dedupFirst [] industries with
  | [] => none
  | k :: ks => some (foldMax (fun v => industries.count v) k ks)

/-- One stored file as seen by a bulk loader: either content that parses
as JSON, or content whose parse raises. -/
inductive FileContent where
  | valid (v : JValue)
  | malformed

/-- Accumulator of the summarize loop of clients_summary.py lines 57-77. -/
structure LoopState where
  industries : List String
  employeeCounts : List ℚ
  challenges : List String
  totalClients : ℕ

/-- One iteration of the summarize loop: malformed files are skipped,
non-client records are skipped, and a classified record contributes its
industry, employee count and challenges. -/
def summarizeStep (st : LoopState) : FileContent → LoopState
  | .malformed => st
  | .valid data =>
      if is_client_record data then
        { industries := st.industries ++ (extract_industry data).toList
          employeeCounts := st.employeeCounts ++ (extract_employees data).toList
          challenges := st.challenges ++ extract_challenges data
          totalClients := st.totalClients + 1 }
      else st

/-- Aggregate snapshot returned by summarize. -/
structure Summary where
  total : ℕ
  mostCommon : Option String
  avgEmployees : Option ℚ
  challenges : List String
deriving DecidableEq

/-- The function summarize of clients_summary.py lines 56-95, over the
contents of the JSON files of the folder in iteration order. -/
def summarize (files : List FileContent) : Summary :=
  let st := files.foldl summarizeStep ⟨[], [], [], 0⟩
  { total := st.totalClients
    mostCommon := mostCommonIndustry st.industries
    avgEmployees :=
      if st.employeeCounts.isEmpty then none
      else some (st.employeeCounts.sum / (st.employeeCounts.length : ℚ))
    challenges := dedupFirst [] st.challenges }

/-- Documents that parse and are classified as client records, in order. -/
def classifiedDocs : List FileContent → List JValue
  | [] => []
  | .malformed :: rest => classifiedDocs rest
  | .valid d :: rest =>
      if is_client_record d then d :: classifiedDocs rest else classifiedDocs rest

/-- Concatenation of the images of a list-valued function. -/
def concatMap {α β : Type} (g : α → List β) : List α → List β
  | [] => []
  | a :: l => g a ++ concatMap g l

/-- Industries contributed to the aggregation, in record order. -/
def industriesOf (files : List FileContent) : List String :=
  concatMap (fun d => (extract_industry d).toList) (classifiedDocs files)

/-- Employee counts contributed to the aggregation, in record order. -/
def employeeVals (files : List FileContent) : List ℚ :=
  concatMap (fun d => (extract_employees d).toList) (classifiedDocs files)

/-- Challenges contributed to the aggregation, in record order. -/
def challengesOf (files : List FileContent) : List String :=
  concatMap extract_challenges (classifiedDocs files)

/-!
Embedding of src/database.py: client files on disk, filename date
extraction, listing with sorting, search, partial update and CSV export.
A directory is a list of filename-content pairs in listdir order; a
missing directory is Option.none at the public entry points.
-/

/-- Calendar date parsed from a filename. -/
structure CalDate where
  year : ℕ
  month : ℕ
  day : ℕ
deriving DecidableEq

/-- Leap-year rule used by the Gregorian calendar and datetime. -/
def isLeap (y : ℕ) : Bool :=
  (y % 4 == 0 && y % 100 != 0) || y % 400 == 0

/-- Number of days of a month as validated by datetime. -/
def daysInMonth (y m : ℕ) : ℕ :=
  if m == 2 then (if isLeap y then 29 else 28)
  else if m == 4 || m == 6 || m == 9 || m == 11 then 30
  else 31

/-- Reading datetime.strptime(candidate, percentY-percentm-percentd) on a
10-character candidate: the only way the format can consume 10 characters
is 4 digits, dash, 2 digits, dash, 2 digits, and datetime then requires
year at least 1, month 1-12 and a day valid for that month. -/
def parseYMD (s : String) : Option CalDate :=
  match s.toList with
  | [y1, y2, y3, y4, '-', m1, m2, '-', d1, d2] =>
      if ([y1, y2, y3, y4, m1, m2, d1, d2].all Char.isDigit) then
        if 1 ≤ digitsToNat [y1, y2, y3, y4] ∧ 1 ≤ digitsToNat [m1, m2] ∧
            digitsToNat [m1, m2] ≤ 12 ∧ 1 ≤ digitsToNat [d1, d2] ∧
            digitsToNat [d1, d2] ≤
              daysInMonth (digitsToNat [y1, y2, y3, y4]) (digitsToNat [m1, m2]) then
          some ⟨digitsToNat [y1, y2, y3, y4], digitsToNat [m1, m2], digitsToNat [d1, d2]⟩
        else none
      else none
  | _ => none

/-- Python os.path.splitext on a bare filename: split at the last dot,
except that a name whose characters before that dot are all dots has no
extension. -/
def splitext (s : String) : String × String :=
  let cs := s.toList
  match (cs.reverse).findIdx? (fun c => c == '.') with
  | none => (s, "")
  | some i =>
      let cut := cs.length - 1 - i
      if (cs.take cut).any (fun c => !(c == '.')) then
        (String.mk (cs.take cut), String.mk (cs.drop cut))
      else (s, "")

/-- Last 10 characters of a string (the whole string when shorter). -/
def lastTen (s : String) : String :=
  String.mk (s.toList.drop (s.toList.length - 10))

/-- The date property of ClientRecord at src/database.py lines 34-49:
none unless the extension lowercases to .json; none unless the stem has
at least 11 characters; otherwise the last 10 stem characters read as a
date, none when that raises. -/
def recordDate (filename : String) : Option CalDate :=
  if strLower (splitext filename).2 == ".json" then
    if 11 ≤ (splitext filename).1.toList.length then parseYMD (lastTen (splitext filename).1)
    else none
  else none

/-- Sort surrogate for an optional date: datetime.min, which is the date
1-1-1, stands in for a missing date, and the encoding
year * 10000 + month * 100 + day is strictly monotone with respect to
chronological order on the validated ranges. -/
def dateKeyOpt : Option CalDate → ℕ
  | none => 10101
  | some dt => dt.year * 10000 + dt.month * 100 + dt.day

/-- In-memory view of one loaded client file. -/
structure ClientRecord where
  filename : String
  data : JValue

/-- A directory listing: filenames with their stored content. -/
abbrev Store : Type := List (String × FileContent)

/-- One directory entry as seen by list_clients: only names ending in
.json (case-insensitively) are considered, unreadable or invalid JSON is
skipped, and any successfully parsed root becomes a record. -/
def recOfFile (p : String × FileContent) : Option ClientRecord :=
  if strEndsWith (strLower p.1) ".json" then
    match p.2 with
    | .valid v => some ⟨p.1, v⟩
    | .malformed => none
  else none

/-- Records collected by the list_clients loop, in listdir order. -/
def collectRecords (files : Store) : List ClientRecord :=
  files.filterMap recOfFile

/-- Sort key of src/database.py line 104: the pair of the parsed
filename date (datetime.min when absent) and the filename. -/
def recKey (r : ClientRecord) : Lex (ℕ × String) :=
  toLex (dateKeyOpt (recordDate r.filename), r.filename)

/-- Ordering relation used to sort client records. -/
def recLe (a b : ClientRecord) : Prop :=
  recKey a ≤ recKey b

instance : DecidableRel recLe := fun a b => by
  unfold recLe
  infer_instance

instance : IsTotal ClientRecord recLe := ⟨fun a b => by
  unfold recLe
  exact le_total _ _⟩

instance : IsTrans ClientRecord recLe := ⟨fun a b c hab hbc => by
  unfold recLe at *
  exact le_trans hab hbc⟩

/-- The method list_clients of src/database.py lines 87-104: an empty
list when the directory is missing, otherwise the collected records
sorted ascending by parsed date (missing dates as datetime.min) with
filename ties broken lexicographically. -/
def listClients (dir : Option Store) : List ClientRecord :=
  match dir with
  | none => []
  | some files => List.insertionSort recLe (collectRecords files)

/-- Python a or b over two optional values: the first when truthy,
otherwise the second. -/
def pyOr (a b : Option JValue) : Option JValue :=
  match a with
  | some v => if truthy v then some v else b
  | none => b

/-- Field lookup on the data of a record, as dict.get; the data of every
record reached by the search claims is an object. -/
def objGet (v : JValue) (k : String) : Option JValue :=
  match v with
  | .jobj kvs => alistGet kvs k
  | _ => none

/-- The business_name property of ClientRecord: business_name falling
back to name under Python or. -/
def recBusinessName (r : ClientRecord) : Option JValue :=
  pyOr (objGet r.data "business_name") (objGet r.data "name")

/-- The industry property of ClientRecord. -/
def recIndustry (r : ClientRecord) : Option JValue :=
  objGet r.data "industry"

/-- Coercion (x or "") of an optional string field before lowering; the
fields compared by search hold strings or are absent. -/
def strOfOpt : Option JValue → String
  | some (.jstr s) => s
  | _ => ""

/-- Whether a list starts with the given pattern. -/
def listStartsWith : List Char → List Char → Bool
  | _, [] => true
  | [], _ :: _ => false
  | a :: as, b :: bs => a == b && listStartsWith as bs

/-- Whether the pattern occurs contiguously in the list. -/
def listHasSub : List Char → List Char → Bool
  | [], pat => listStartsWith [] pat
  | l@(_ :: t), pat => listStartsWith l pat || listHasSub t pat

/-- Python substring membership pat in s. -/
def strHasSub (s pat : String) : Bool :=
  listHasSub s.toList pat.toList

/-- Truthiness of an optional string criterion. -/
def truthyStr : Option String → Bool
  | some s => !(s == "")
  | none => false

/-- The matches closure of search_clients at src/database.py lines
128-140: each truthy criterion must hold, case-insensitive substring
containment for strings and equality of the filename date for dates; a
record without a parseable filename date never matches a date. -/
def matchesRec (r : ClientRecord) (bn ind : Option String) (d : Option CalDate) : Bool :=
  (!(truthyStr bn) || strHasSub (strLower (strOfOpt (recBusinessName r))) (strLower (bn.getD ""))) &&
  (!(truthyStr ind) || strHasSub (strLower (strOfOpt (recIndustry r))) (strLower (ind.getD ""))) &&
  (!(d.isSome) ||
    match recordDate r.filename with
    | none => false
    | some dt => decide (dt = d.getD ⟨1, 1, 1⟩))

/-- The method search_clients of src/database.py lines 112-142: all
records when no criterion is truthy, otherwise the records matching the
conjunction of the supplied criteria. -/
def searchClients (dir : Option Store) (bn ind : Option String) (d : Option CalDate) :
    List ClientRecord :=
  let all := listClients dir
  if !(truthyStr bn || truthyStr ind || d.isSome) then all
  else all.filter (fun r => matchesRec r bn ind d)

/-- Keys of an object root, as data.keys(). -/
def objKeys : JValue → List String
  | .jobj kvs => kvs.map (fun p => p.1)
  | _ => []

/-- Failure of the csv export: opening the target file for writing
raises when its parent directory does not exist. -/
inductive ExportErr where
  | fileNotFound
deriving DecidableEq

/-- The method export_to_csv of src/database.py lines 161-197 called
with the default csv_path, whose parent is base_dir; with
CLIENTS_SUBDIR empty the storage directory IS base_dir, so the
directory state of the model decides whether the open succeeds. The
empty-collection branch (lines 169-176) opens
base_dir/clients_export.csv with no preceding makedirs and writes the
bare filename header: when the directory is missing this open raises
FileNotFoundError. The non-empty branch runs makedirs on the parent
before opening (line 187) and can only be reached with the directory
present; it writes the header row (filename then the union of record
keys, sorted) followed by one row of cells per record in header order
with empty-string defaults, modelled up to the stringification of the
csv writer. -/
def exportCsv (dir : Option Store) : Except ExportErr (List String × List (List JValue)) :=
  let clients := listClients dir
  if clients.isEmpty then
    match dir with
    | none => Except.error ExportErr.fileNotFound
    | some _ => Except.ok (["filename"], [])
  else
    let allKeys := dedupFirst [] (concatMap (fun r => objKeys r.data) clients)
    let sortedKeys := List.insertionSort (fun a b => a ≤ b) allKeys
    Except.ok ("filename" :: sortedKeys,
      clients.map (fun r =>
        JValue.jstr r.filename ::
          sortedKeys.map (fun k => (objGet r.data k).getD (JValue.jstr ""))))

/-- Replace the first binding of a key, appending when absent; models
both writing a file into a directory and dict key assignment. -/
def alistSet {β : Type} : List (String × β) → String → β → List (String × β)
  | [], k, c => [(k, c)]
  | (g, d) :: rest, k, c =>
      if g == k then (k, c) :: rest else (g, d) :: alistSet rest k c

/-- Python dict.update: each update key replaces or adds a binding, in
update order. -/
def dictUpdate (base : List (String × JValue)) (upds : List (String × JValue)) :
    List (String × JValue) :=
  upds.foldl (fun b kv => alistSet b kv.1 kv.2) base

/-- Failures surfaced by update_client: a missing file, content whose
JSON parse raises, or a parsed root that is not a dict (whose update
attribute access raises). -/
inductive UpdateErr where
  | notFound
  | invalidJson
  | attrError
deriving DecidableEq

/-- The method update_client of src/database.py lines 144-159 threaded
over the store: load the named file (every load failure occurs before
anything is written, leaving the store untouched), apply the shallow
merge, then write the merged document back. -/
def updateClient (store : Store) (filename : String) (upds : List (String × JValue)) :
    Store × Except UpdateErr (List (String × JValue)) :=
  match alistGet store filename with
  | none => (store, .error .notFound)
  | some .malformed => (store, .error .invalidJson)
  | some (.valid v) =>
      match v with
      | .jobj kvs =>
          let merged := dictUpdate kvs upds
          (alistSet store filename (.valid (.jobj merged)), .ok merged)
      | _ => (store, .error .attrError)

/-!
Embedding of the generic fallback extractor of clients_menu.py, and
definitions written from the words of the specification, used to compare
the specified behaviour with the embedded code.
-/

/-- The function extract_field of clients_menu.py lines 84-88: the value
of the first listed key that is present and compares unequal to both
None and the empty string; none otherwise. -/
def extract_field (kvs : List (String × JValue)) : List String → Option JValue
  | [] => none
  | k :: ks =>
      match alistGet kvs k with
      | none => extract_field kvs ks
      | some .jnull => extract_field kvs ks
      | some (.jstr s) => if s == "" then extract_field kvs ks else some (.jstr s)
      | some v => some v

/-- Specified from the claim wording for the classifier: name and
business_name both present with non-empty value, or business_name
present (mere key presence) with the employees_count or industry key
present. -/
def specClassifiableClaim (kvs : List (String × JValue)) : Bool :=
  (dictGetTruthy kvs "name" && dictGetTruthy kvs "business_name") ||
  (hasKey kvs "business_name" && (hasKey kvs "employees_count" || hasKey kvs "industry"))

/-- A key is bound to a truthy (present and non-empty) value. -/
def TruthyAt (kvs : List (String × JValue)) (k : String) : Prop :=
  ∃ v, alistGet kvs k = some v ∧ truthy v = true

/-- A key is bound to some value. -/
def HasKeyAt (kvs : List (String × JValue)) (k : String) : Prop :=
  ∃ v, alistGet kvs k = some v

/-- Specified from the claim wording for employee-count resolution: the
value of the first key among employees_count, employees, num_employees
that is present and neither None nor empty. -/
def specEmployeeKeyClaim (kvs : List (String × JValue)) : Option JValue :=
  extract_field kvs ["employees_count", "employees", "num_employees"]

/-- First listed key that is present at all, regardless of its value. -/
def resolveFirstPresent (kvs : List (String × JValue)) : List String → Option JValue
  | [] => none
  | k :: ks =>
      match alistGet kvs k with
      | some v => some v
      | none => resolveFirstPresent kvs ks

/-- Specified from the claim wording for the average: only non-negative
parsed employee counts contribute. -/
def specAvgClaimVals (files : List FileContent) : List ℚ :=
  (employeeVals files).filter (fun q => decide (0 ≤ q))

/-- Specified from the claim wording for the average: the mean of the
non-negative parsed employee counts, absent when none contributes. -/
def specAvgClaim (files : List FileContent) : Option ℚ :=
  if (specAvgClaimVals files).isEmpty then none
  else some ((specAvgClaimVals files).sum / ((specAvgClaimVals files).length : ℚ))

/-- Specified from the claim wording for per-record challenges: the
main_challenge singleton followed by the challenges or main_challenges
list, non-empty strings only, order preserved. -/
def specMainChallengesClaim : JValue → List String
  | .jobj kvs =>
      (match alistGet kvs "main_challenge" with
       | some (.jstr s) => if strTrim s == "" then [] else [strTrim s]
       | _ => []) ++
      (match alistGet kvs "challenges" with
       | some (.jarr items) => challengeItems items
       | _ =>
          match alistGet kvs "main_challenges" with
          | some (.jarr items) => challengeItems items
          | _ => [])
  | _ => []

/-- Specified from the claim wording for the aggregate challenge list:
order-preserving deduplication of the concatenated per-record lists. -/
def specAllChallengesClaim (files : List FileContent) : List String :=
  dedupFirst [] (concatMap specMainChallengesClaim (classifiedDocs files))

/-- Scan helper: the first element whose running occurrence count
reaches the bound m, given the elements already seen. -/
def firstReachAux (seen : List String) (m : ℕ) : List String → Option String
  | [] => none
  | x :: rest =>
      if seen.count x + 1 = m then some x else firstReachAux (x :: seen) m rest

/-- Specified from the claim wording for the tie-break: the first value
whose running count reaches the maximum occurrence count, scanning the
industries in record-iteration order. -/
def firstToReachMax (xs : List String) : Option String :=
  firstReachAux [] (maxF (fun v => xs.count v) (dedupFirst [] xs)) xs

/-- Specified from the claim wording for filename dates: the last 10
characters of the stem before the extension, read as a date, with no
constraint on the stem length. -/
def specDateClaim (filename : String) : Option CalDate :=
  if strLower (splitext filename).2 == ".json" then parseYMD (lastTen (splitext filename).1)
  else none

/-!
Helper lemmas: fusion of the summarize loop with its declarative
description, the characterisation of the Python max scan, and small
facts about association lists.
-/

theorem summarizeStep_malformed (st : LoopState) :
    summarizeStep st FileContent.malformed = st := rfl

theorem summarize_loop (files : List FileContent) (st : LoopState) :
    files.foldl summarizeStep st =
      { industries := st.industries ++ industriesOf files
        employeeCounts := st.employeeCounts ++ employeeVals files
        challenges := st.challenges ++ challengesOf files
        totalClients := st.totalClients + (classifiedDocs files).length } := by
  induction files generalizing st with
  | nil =>
      simp [industriesOf, employeeVals, challengesOf, classifiedDocs, concatMap]
  | cons fc rest ih =>
      cases fc with
      | malformed =>
          rw [List.foldl_cons, summarizeStep_malformed, ih]
          simp [industriesOf, employeeVals, challengesOf, classifiedDocs]
      | valid d =>
          by_cases h : is_client_record d = true
          · rw [List.foldl_cons]
            have hstep : summarizeStep st (FileContent.valid d) =
                { industries := st.industries ++ (extract_industry d).toList
                  employeeCounts := st.employeeCounts ++ (extract_employees d).toList
                  challenges := st.challenges ++ extract_challenges d
                  totalClients := st.totalClients + 1 } := by
              simp [summarizeStep, h]
            rw [hstep, ih]
            simp only [industriesOf, employeeVals, challengesOf, classifiedDocs, h,
              if_true, concatMap, LoopState.mk.injEq, List.append_assoc, List.length_cons]
            refine ⟨trivial, trivial, trivial, by omega⟩
          · rw [List.foldl_cons]
            have hstep : summarizeStep st (FileContent.valid d) = st := by
              simp [summarizeStep, h]
            rw [hstep, ih]
            simp [industriesOf, employeeVals, challengesOf, classifiedDocs, h]

theorem summarize_eq (files : List FileContent) :
    summarize files =
      { total := (classifiedDocs files).length
        mostCommon := mostCommonIndustry (industriesOf files)
        avgEmployees :=
          if (employeeVals files).isEmpty then none
          else some ((employeeVals files).sum / ((employeeVals files).length : ℚ))
        challenges := dedupFirst [] (challengesOf files) } := by
  unfold summarize
  rw [summarize_loop]
  simp

theorem le_maxFrom {α : Type} (f : α → ℕ) (m : ℕ) (l : List α) : m ≤ maxFrom f m l := by
  induction l generalizing m with
  | nil => exact le_refl m
  | cons x t ih => exact le_trans (Nat.le_max_left m (f x)) (ih (max m (f x)))

theorem maxFrom_cons {α : Type} (f : α → ℕ) (m : ℕ) (x : α) (l : List α) :
    maxFrom f m (x :: l) = maxFrom f (max m (f x)) l := rfl

theorem foldMax_find {α : Type} (f : α → ℕ) (l : List α) (a : α) :
    some (foldMax f a l) = (a :: l).find? (fun x => f x == maxF f (a :: l)) := by
  induction l generalizing a with
  | nil =>
      have hm : maxF f [a] = f a := by
        simp [maxF, maxFrom]
      simp [foldMax, hm, List.find?]
  | cons b t ih =>
      have hstepval : f (if f a < f b then b else a) = max (f a) (f b) := by
        by_cases h : f a < f b
        · simp [h, Nat.max_eq_right (le_of_lt h)]
        · simp [h, Nat.max_eq_left (le_of_not_lt h)]
      have hM : maxF f ((if f a < f b then b else a) :: t) = maxF f (a :: b :: t) := by
        rw [maxF, maxF, maxFrom_cons, maxFrom_cons, maxFrom_cons]
        rw [Nat.zero_max, Nat.zero_max, hstepval]
      have hfold : foldMax f a (b :: t) = foldMax f (if f a < f b then b else a) t := rfl
      rw [hfold, ih, hM]
      have hub : max (f a) (f b) ≤ maxF f (a :: b :: t) := by
        rw [maxF, maxFrom_cons, maxFrom_cons, Nat.zero_max, hstepval.symm]
        exact le_maxFrom f _ t
      by_cases h : f a < f b
      · have hfa : (f a == maxF f (a :: b :: t)) = false := by
          have hlt : f a < maxF f (a :: b :: t) :=
            lt_of_lt_of_le (lt_of_lt_of_le h (Nat.le_max_right (f a) (f b))) hub
          simp [Nat.ne_of_lt hlt]
        simp only [h, if_true, List.find?_cons, hfa]
      · simp only [h, if_false]
        by_cases hA : f a = maxF f (a :: b :: t)
        · have hfa : (f a == maxF f (a :: b :: t)) = true := by simp [hA]
          simp only [List.find?_cons, hfa]
        · have hlt : f a < maxF f (a :: b :: t) :=
            lt_of_le_of_ne (le_trans (Nat.le_max_left (f a) (f b)) hub) hA
          have hfa : (f a == maxF f (a :: b :: t)) = false := by simp [hA]
          have hfb : (f b == maxF f (a :: b :: t)) = false := by
            have hbl : f b < maxF f (a :: b :: t) :=
              lt_of_le_of_lt (le_of_not_lt h) hlt
            simp [Nat.ne_of_lt hbl]
          simp only [List.find?_cons, hfa, hfb]

theorem mostCommonIndustry_eq_find (xs : List String) :
    mostCommonIndustry xs =
      (dedupFirst [] xs).find?
        (fun k => xs.count k == maxF (fun v => xs.count v) (dedupFirst [] xs)) := by
  unfold mostCommonIndustry
  cases hd : dedupFirst [] xs with
  | nil => simp
  | cons k ks => exact foldMax_find (fun v => xs.count v) ks k

theorem dictGetTruthy_iff (kvs : List (String × JValue)) (k : String) :
    dictGetTruthy kvs k = true ↔ TruthyAt kvs k := by
  unfold dictGetTruthy TruthyAt
  cases h : alistGet kvs k with
  | none => simp
  | some v => simp

theorem hasKey_iff (kvs : List (String × JValue)) (k : String) :
    hasKey kvs k = true ↔ HasKeyAt kvs k := by
  unfold hasKey HasKeyAt
  cases h : alistGet kvs k with
  | none => simp [h]
  | some v => simp [h]

theorem alistGet_alistSet_self {β : Type} (kvs : List (String × β)) (k : String) (c : β) :
    alistGet (alistSet kvs k c) k = some c := by
  induction kvs with
  | nil => simp [alistSet, alistGet]
  | cons p rest ih =>
      obtain ⟨g, d⟩ := p
      by_cases h : (g == k) = true
      · simp [alistSet, alistGet, h]
      · simp only [alistSet, h, if_false, Bool.false_eq_true]
        have hne : ((g, d).1 == k) = false := by
          simpa using h
        simpa [alistGet, List.find?_cons, hne] using ih

theorem recOfFile_malformed (n : String) :
    recOfFile (n, FileContent.malformed) = none := by
  unfold recOfFile
  split
  · rfl
  · rfl

theorem parseYMD_key_ge (s : String) (dt : CalDate) (h : parseYMD s = some dt) :
    10101 ≤ dt.year * 10000 + dt.month * 100 + dt.day := by
  unfold parseYMD at h
  split at h
  · split at h
    · split at h
      · rename_i hcond
        injection h with h2
        subst h2
        obtain ⟨hy, hmo1, hmo2, hda1, hda2⟩ := hcond
        dsimp only
        omega
      · exact Option.noConfusion h
    · exact Option.noConfusion h
  · exact Option.noConfusion h

theorem recordDate_key_ge (fn : String) (dt : CalDate) (h : recordDate fn = some dt) :
    dateKeyOpt none ≤ dateKeyOpt (some dt) := by
  unfold recordDate at h
  split at h
  · split at h
    · simpa [dateKeyOpt] using parseYMD_key_ge _ dt h
    · exact Option.noConfusion h
  · exact Option.noConfusion h

/-!
Claim theorems. Each claim of the frozen list receives one theorem;
corrected claims additionally receive a counterexample theorem refuting
the original wording at a concrete input.
-/

/-- C1 (amended): mostCommonIndustry returns the value with the highest
occurrence count, and among values sharing the maximum count the winner
is the first-encountered value (the one whose first occurrence is
earliest in record-iteration order): it is the first entry of the
first-occurrence-ordered key list whose count equals the maximum count.
In particular the industries [Retail, Tech, Retail, Tech] yield Retail,
also when flowing through summarize. -/
theorem claim1_most_common_first_encountered :
    (∀ xs : List String,
        mostCommonIndustry xs =
          (dedupFirst [] xs).find?
            (fun k => xs.count k == maxF (fun v => xs.count v) (dedupFirst [] xs))) ∧
    mostCommonIndustry ["Retail", "Tech", "Retail", "Tech"] = some "Retail" ∧
    (summarize
      [FileContent.valid (JValue.jobj
          [("business_name", JValue.jstr "B1"), ("industry", JValue.jstr "Retail")]),
        FileContent.valid (JValue.jobj
          [("business_name", JValue.jstr "B2"), ("industry", JValue.jstr "Tech")]),
        FileContent.valid (JValue.jobj
          [("business_name", JValue.jstr "B3"), ("industry", JValue.jstr "Retail")]),
        FileContent.valid (JValue.jobj
          [("business_name", JValue.jstr "B4"), ("industry", JValue.jstr "Tech")])]).mostCommon
      = some "Retail" := by
  refine ⟨fun xs => mostCommonIndustry_eq_find xs, by decide, rfl⟩

/-- C1 counterexample: for industries encountered in order
[Tech, Retail, Retail, Tech] the code returns Tech (the first-inserted
Counter key among the tied values), while the first value to reach the
maximum count 2 in iteration order is Retail (its second occurrence
comes before the second occurrence of Tech), so the tie-break stated in
the claim does not describe the code. -/
theorem claim1_most_common_first_encountered_cex :
    (summarize
      [FileContent.valid (JValue.jobj
          [("business_name", JValue.jstr "B1"), ("industry", JValue.jstr "Tech")]),
        FileContent.valid (JValue.jobj
          [("business_name", JValue.jstr "B2"), ("industry", JValue.jstr "Retail")]),
        FileContent.valid (JValue.jobj
          [("business_name", JValue.jstr "B3"), ("industry", JValue.jstr "Retail")]),
        FileContent.valid (JValue.jobj
          [("business_name", JValue.jstr "B4"), ("industry", JValue.jstr "Tech")])]).mostCommon
      = some "Tech" ∧
    firstToReachMax ["Tech", "Retail", "Retail", "Tech"] = some "Retail" := by
  exact ⟨rfl, by decide⟩

/-- C2 (amended): the classifier accepts a document exactly when name
and business_name are both bound to truthy (present and non-empty)
values, or business_name is bound to a truthy value and at least one of
the keys employees_count or industry is present; and totalCount counts
exactly the classified documents, so every rejected document is never
counted. The amendment is that business_name must be truthy, not merely
present, in the second disjunct. -/
theorem claim2_classifier_amended :
    (∀ kvs, is_client_record (JValue.jobj kvs) = true ↔
        ((TruthyAt kvs "name" ∧ TruthyAt kvs "business_name") ∨
          (TruthyAt kvs "business_name" ∧
            (HasKeyAt kvs "employees_count" ∨ HasKeyAt kvs "industry")))) ∧
    (∀ files, (summarize files).total = (classifiedDocs files).length) := by
  constructor
  · intro kvs
    simp [is_client_record, dictGetTruthy_iff, hasKey_iff]
  · intro files
    rw [summarize_eq]

/-- C2 counterexample: a document whose business_name is present but
empty and whose industry key is present satisfies the claimed predicate
(business_name present, industry present) yet the code rejects it, so
it is excluded from aggregation though the claim admits it. -/
theorem claim2_classifier_cex :
    is_client_record (JValue.jobj
      [("business_name", JValue.jstr ""), ("industry", JValue.jstr "Tech")]) = false ∧
    specClassifiableClaim
      [("business_name", JValue.jstr ""), ("industry", JValue.jstr "Tech")] = true := by
  exact ⟨rfl, rfl⟩

/-- C3 (amended): the summarizer resolves employeeCount by consulting
employees_count then employees only; the num_employees key is never
consulted. The first PRESENT key is taken regardless of its value: its
value is then float-converted, and a conversion failure yields absence
without consulting the later key. The menu extractor extract_field does
stop at the first key whose value is present and neither None nor empty,
never consulting later keys once one matches. -/
theorem claim3_employee_fallback_amended :
    (∀ kvs, extract_employees (JValue.jobj kvs) =
        (resolveFirstPresent kvs ["employees_count", "employees"]).bind pyFloat) ∧
    (∀ kvs k ks v, alistGet kvs k = some v → v ≠ JValue.jnull → v ≠ JValue.jstr "" →
        extract_field kvs (k :: ks) = some v) ∧
    extract_employees (JValue.jobj
      [("business_name", JValue.jstr "B"), ("num_employees", JValue.jnum 7)]) = none := by
  refine ⟨?_, ?_, rfl⟩
  · intro kvs
    unfold extract_employees resolveFirstPresent
    cases h1 : alistGet kvs "employees_count" with
    | some v => simp [h1]
    | none =>
        cases h2 : alistGet kvs "employees" with
        | some v => simp [h1, h2, resolveFirstPresent]
        | none => simp [h1, h2, resolveFirstPresent]
  · intro kvs k ks v h hn hs
    unfold extract_field
    rw [h]
    cases v with
    | jnull => exact absurd rfl hn
    | jstr s =>
        have hne : (s == "") = false := by
          by_cases hc : s = ""
          · exact absurd (by rw [hc]) hs
          · simpa using hc
        simp [hne]
    | jbool b => rfl
    | jnum q => rfl
    | jarr items => rfl
    | jobj fields => rfl

/-- C3 witness: the first-match clause applied at a concrete record. -/
theorem claim3_employee_fallback_witness :
    extract_field [("employees_count", JValue.jnum 42)] ["employees_count", "employees"] =
      some (JValue.jnum 42) :=
  claim3_employee_fallback_amended.2.1 _ "employees_count" ["employees"] (JValue.jnum 42)
    rfl (fun hc => JValue.noConfusion hc) (fun hc => JValue.noConfusion hc)

/-- C3 counterexample: with employees_count bound to None and
num_employees bound to 7, the claimed resolution (first of
employees_count, employees, num_employees that is present and not
None/empty) yields 7, but both embedded extractors yield absence:
num_employees is never consulted, and the summarizer does not skip a
present-but-None employees_count. -/
theorem claim3_employee_fallback_cex :
    extract_employees (JValue.jobj
      [("employees_count", JValue.jnull), ("num_employees", JValue.jnum 7)]) = none ∧
    extract_field [("employees_count", JValue.jnull), ("num_employees", JValue.jnum 7)]
      ["employees_count", "employees"] = none ∧
    specEmployeeKeyClaim [("employees_count", JValue.jnull), ("num_employees", JValue.jnum 7)] =
      some (JValue.jnum 7) := by
  exact ⟨rfl, rfl, rfl⟩

/-- C4 (amended): averageEmployeeCount is the arithmetic mean over
exactly the classified records whose employeeCount converts to a number
(of any sign, not only non-negative ones), absent when no record
contributes; a record whose employeeCount fails to convert is excluded
from the average but still counted in totalCount, so employee values
[10, "bad", 20] yield an average of 15 and a total of 3. -/
theorem claim4_average_amended :
    (∀ files, (summarize files).avgEmployees =
        (if (employeeVals files).isEmpty then none
         else some ((employeeVals files).sum / ((employeeVals files).length : ℚ)))) ∧
    (summarize
      [FileContent.valid (JValue.jobj
          [("business_name", JValue.jstr "B1"), ("employees_count", JValue.jnum 10)]),
        FileContent.valid (JValue.jobj
          [("business_name", JValue.jstr "B2"), ("employees_count", JValue.jstr "bad")]),
        FileContent.valid (JValue.jobj
          [("business_name", JValue.jstr "B3"),
            ("employees_count", JValue.jnum 20)])]).avgEmployees = some 15 ∧
    (summarize
      [FileContent.valid (JValue.jobj
          [("business_name", JValue.jstr "B1"), ("employees_count", JValue.jnum 10)]),
        FileContent.valid (JValue.jobj
          [("business_name", JValue.jstr "B2"), ("employees_count", JValue.jstr "bad")]),
        FileContent.valid (JValue.jobj
          [("business_name", JValue.jstr "B3"),
            ("employees_count", JValue.jnum 20)])]).total = 3 := by
  refine ⟨?_, ?_, rfl⟩
  · intro files
    rw [summarize_eq]
  · have h : (summarize
      [FileContent.valid (JValue.jobj
          [("business_name", JValue.jstr "B1"), ("employees_count", JValue.jnum 10)]),
        FileContent.valid (JValue.jobj
          [("business_name", JValue.jstr "B2"), ("employees_count", JValue.jstr "bad")]),
        FileContent.valid (JValue.jobj
          [("business_name", JValue.jstr "B3"),
            ("employees_count", JValue.jnum 20)])]).avgEmployees =
        some (List.sum [(10 : ℚ), 20] / ((2 : ℕ) : ℚ)) := rfl
    rw [h]
    norm_num

/-- C4 counterexample: a single classified record with employees_count
equal to -10 makes the code report an average of -10 even though the
value is negative, while the mean over records whose employeeCount
parses to a non-negative number would be absent. -/
theorem claim4_average_cex :
    (summarize
      [FileContent.valid (JValue.jobj
          [("business_name", JValue.jstr "B"),
            ("employees_count", JValue.jnum (-10))])]).avgEmployees = some (-10) ∧
    specAvgClaim
      [FileContent.valid (JValue.jobj
          [("business_name", JValue.jstr "B"),
            ("employees_count", JValue.jnum (-10))])] = none := by
  constructor
  · have h : (summarize
      [FileContent.valid (JValue.jobj
          [("business_name", JValue.jstr "B"),
            ("employees_count", JValue.jnum (-10))])]).avgEmployees =
        some (List.sum [(-10 : ℚ)] / ((1 : ℕ) : ℚ)) := rfl
    rw [h]
    norm_num
  · have hv : employeeVals
      [FileContent.valid (JValue.jobj
          [("business_name", JValue.jstr "B"),
            ("employees_count", JValue.jnum (-10))])] = [(-10 : ℚ)] := rfl
    have hf : specAvgClaimVals
      [FileContent.valid (JValue.jobj
          [("business_name", JValue.jstr "B"),
            ("employees_count", JValue.jnum (-10))])] = [] := by
      unfold specAvgClaimVals
      rw [hv]
      simp only [List.filter_cons, List.filter_nil]
      norm_num
    unfold specAvgClaim
    rw [hf]
    simp

/-- C5 (amended): the aggregate challenge list is the order-preserving
first-wins deduplication of the concatenation, in record-iteration
order, of the extracted challenges of each classified record, where the
challenges of a record are its stripped non-blank main_challenge singleton
followed by the stripped non-blank strings of its challenges list; the
main_challenges key is never consulted, as extraction depends only on
the main_challenge and challenges bindings. -/
theorem claim5_challenges_amended :
    (∀ files, (summarize files).challenges = dedupFirst [] (challengesOf files)) ∧
    (∀ d d', alistGet d "main_challenge" = alistGet d' "main_challenge" →
        alistGet d "challenges" = alistGet d' "challenges" →
        extract_challenges (JValue.jobj d) = extract_challenges (JValue.jobj d')) := by
  constructor
  · intro files
    rw [summarize_eq]
  · intro d d' h1 h2
    simp only [extract_challenges]
    rw [h1, h2]

/-- C5 witness: the dependency clause applied to a record holding only a
main_challenges list and to the empty record, which extract identically. -/
theorem claim5_challenges_witness :
    extract_challenges (JValue.jobj [("main_challenges", JValue.jarr [JValue.jstr "Growth"])]) =
      extract_challenges (JValue.jobj []) :=
  claim5_challenges_amended.2 _ _ rfl rfl

/-- C5 counterexample: a classified record carrying its challenges only
under the main_challenges key contributes nothing to the aggregate,
though the claimed union of main_challenge and challenges or
main_challenges would contribute Growth. -/
theorem claim5_challenges_cex :
    (summarize
      [FileContent.valid (JValue.jobj
          [("business_name", JValue.jstr "B"), ("industry", JValue.jstr "T"),
            ("main_challenges", JValue.jarr [JValue.jstr "Growth"])])]).challenges = [] ∧
    specAllChallengesClaim
      [FileContent.valid (JValue.jobj
          [("business_name", JValue.jstr "B"), ("industry", JValue.jstr "T"),
            ("main_challenges", JValue.jarr [JValue.jstr "Growth"])])] = ["Growth"] := by
  exact ⟨rfl, rfl⟩

/-- C6: update fails with NotFound when no stored document exists for
the named file, and every failure of update leaves the store exactly as
it was: all load-stage failures (missing file, invalid JSON, non-object
root) occur before anything is written, so no partial state change is
ever visible on failure. -/
theorem claim6_update_atomic (store : Store) (f : String) (u : List (String × JValue)) :
    (alistGet store f = none →
        updateClient store f u = (store, Except.error UpdateErr.notFound)) ∧
    (∀ e, (updateClient store f u).2 = Except.error e → (updateClient store f u).1 = store) := by
  constructor
  · intro h
    unfold updateClient
    rw [h]
  · intro e h
    cases hg : alistGet store f with
    | none => simp [updateClient, hg]
    | some c =>
        cases c with
        | malformed => simp [updateClient, hg]
        | valid v =>
            cases v with
            | jobj kvs => simp [updateClient, hg] at h
            | jnull => simp [updateClient, hg]
            | jbool b => simp [updateClient, hg]
            | jnum q => simp [updateClient, hg]
            | jstr s => simp [updateClient, hg]
            | jarr items => simp [updateClient, hg]

/-- C6 witness: updating a missing file in an empty store reports
NotFound and leaves the store unchanged. -/
theorem claim6_update_atomic_witness :
    updateClient [] "acme.json" [] = ([], Except.error UpdateErr.notFound) ∧
    (updateClient [] "acme.json" []).1 = [] :=
  ⟨(claim6_update_atomic [] "acme.json" []).1 rfl,
    (claim6_update_atomic [] "acme.json" []).2 UpdateErr.notFound rfl⟩

/-- C7 (amended): during bulk load a document whose JSON parse fails is
silently skipped by both the summarizer and list_clients, and processing
of the remaining documents is unaffected; a document that parses to a
non-object root is rejected by the classifier and so contributes nothing
to the aggregation of the summarizer; list_clients, however, does emit a
record for a valid-JSON non-object root (see the counterexample), so
only genuine parse failures are skipped there. -/
theorem claim7_bulk_skip_amended :
    (∀ pre post, summarize (pre ++ FileContent.malformed :: post) = summarize (pre ++ post)) ∧
    (∀ pre post v, is_client_record v = false →
        summarize (pre ++ FileContent.valid v :: post) = summarize (pre ++ post)) ∧
    (∀ v, isObj v = false → is_client_record v = false) ∧
    (∀ pre post n,
        listClients (some (pre ++ (n, FileContent.malformed) :: post)) =
          listClients (some (pre ++ post))) := by
  refine ⟨?_, ?_, ?_, ?_⟩
  · intro pre post
    simp only [summarize, List.foldl_append, List.foldl_cons, summarizeStep_malformed]
  · intro pre post v h
    have hstep : ∀ st, summarizeStep st (FileContent.valid v) = st := by
      intro st
      simp [summarizeStep, h]
    simp only [summarize, List.foldl_append, List.foldl_cons, hstep]
  · intro v hv
    cases v with
    | jobj kvs => exact absurd hv (by simp [isObj])
    | jnull => rfl
    | jbool b => rfl
    | jnum q => rfl
    | jstr s => rfl
    | jarr items => rfl
  · intro pre post n
    simp only [listClients, collectRecords, List.filterMap_append, List.filterMap_cons,
      recOfFile_malformed]

/-- C7 witness: a valid-JSON array document is rejected by the
classifier and its presence does not change the summary. -/
theorem claim7_bulk_skip_witness :
    summarize [FileContent.valid (JValue.jarr [])] = summarize [] ∧
    is_client_record (JValue.jarr []) = false :=
  ⟨claim7_bulk_skip_amended.2.1 [] [] (JValue.jarr []) rfl,
    claim7_bulk_skip_amended.2.2.1 (JValue.jarr []) rfl⟩

/-- C7 counterexample: a stored file whose content is the valid JSON
array [] is not skipped by list_clients: a record with that non-object
root is emitted, contradicting the claim that no record is emitted for a
document whose root is not an object. -/
theorem claim7_bulk_skip_cex :
    listClients (some [("a.json", FileContent.valid (JValue.jarr []))]) =
      [⟨"a.json", JValue.jarr []⟩] := rfl

/-- C8 (amended): list_clients returns the collected records sorted
ascending by the filename date (records without a parseable date sort as
the minimum date, datetime.min, hence first), ties broken by filename;
the filename date is the last 10 stem characters parsed as a
year-month-day PROVIDED the stem has at least 11 characters (at least
one character precedes the date), so acme-2025-11-16.json parses to
2025-11-16 and acme.json has no date; every parsed date sorts at or
after the missing-date minimum. -/
theorem claim8_date_sorting_amended :
    (∀ files : Store, (listClients (some files)).Sorted recLe ∧
        (listClients (some files)).Perm (collectRecords files)) ∧
    recordDate "acme-2025-11-16.json" = some ⟨2025, 11, 16⟩ ∧
    recordDate "acme.json" = none ∧
    (∀ fn dt, recordDate fn = some dt → dateKeyOpt none ≤ dateKeyOpt (some dt)) := by
  refine ⟨?_, rfl, rfl, ?_⟩
  · intro files
    exact ⟨List.sorted_insertionSort recLe (collectRecords files),
      List.perm_insertionSort recLe (collectRecords files)⟩
  · intro fn dt h
    exact recordDate_key_ge fn dt h

/-- C8 witness: the dated filename of the claim instantiates the
minimum-date clause. -/
theorem claim8_date_sorting_witness :
    dateKeyOpt none ≤ dateKeyOpt (some ⟨2025, 11, 16⟩) :=
  claim8_date_sorting_amended.2.2.2 "acme-2025-11-16.json" ⟨2025, 11, 16⟩ rfl

/-- C8 counterexample: for the filename 2025-11-16.json the last 10 stem
characters parse as the date 2025-11-16, yet the code yields no date
because the stem has only 10 characters: the claimed unconditional
last-10-characters rule does not describe the code. -/
theorem claim8_date_sorting_cex :
    recordDate "2025-11-16.json" = none ∧
    specDateClaim "2025-11-16.json" = some ⟨2025, 11, 16⟩ := ⟨rfl, rfl⟩

/-- C9: updating a stored document with an empty updates mapping leaves
the stored content for that file exactly as before: the shallow merge
with no keys is the identity, and every failing path leaves the store
untouched, so the round-trip holds for every store and filename. -/
theorem claim9_empty_update_roundtrip (store : Store) (f : String) :
    alistGet ((updateClient store f []).1) f = alistGet store f := by
  cases hg : alistGet store f with
  | none => simp [updateClient, hg]
  | some c =>
      cases c with
      | malformed => simp [updateClient, hg]
      | valid v =>
          cases v with
          | jobj kvs =>
              have hm : dictUpdate kvs [] = kvs := rfl
              simp only [updateClient, hg, hm]
              rw [alistGet_alistSet_self]
          | jnull => simp [updateClient, hg]
          | jbool b => simp [updateClient, hg]
          | jnum q => simp [updateClient, hg]
          | jstr s => simp [updateClient, hg]
          | jarr items => simp [updateClient, hg]

/-- C10 (amended): when the storage directory is missing, listing
returns an empty list and searching under any combination of criteria
returns an empty list, with no failure; the default-path CSV export,
however, raises FileNotFoundError, because the empty-collection branch
opens base_dir/clients_export.csv without creating the missing
directory first. When the directory exists but holds no client
records, the export does succeed with the bare filename header. -/
theorem claim10_missing_dir_amended :
    listClients none = [] ∧
    (∀ bn ind d, searchClients none bn ind d = []) ∧
    exportCsv none = Except.error ExportErr.fileNotFound ∧
    (∀ files : Store, listClients (some files) = [] →
        exportCsv (some files) = Except.ok (["filename"], [])) := by
  refine ⟨rfl, ?_, rfl, ?_⟩
  · intro bn ind d
    unfold searchClients
    simp only [listClients]
    split
    · rfl
    · simp
  · intro files h
    simp [exportCsv, h]

/-- C10 witness: exporting an existing directory with no files yields
the bare header. -/
theorem claim10_missing_dir_witness :
    exportCsv (some []) = Except.ok (["filename"], []) :=
  claim10_missing_dir_amended.2.2.2 [] rfl

/-- C10 counterexample: with the storage directory missing, the
default-path CSV export does not succeed as if the collection were
empty: it fails with FileNotFoundError, since the empty branch of
export_to_csv opens the default target under the missing base_dir with
no makedirs. -/
theorem claim10_missing_dir_cex :
    exportCsv none = Except.error ExportErr.fileNotFound := rfl
